import Mathlib

/-!
Verification development for the C wrapper over the depth-sensing SDK
(`wrapper.cpp`): graph/port model, heuristic port resolution, link/unlink,
device lifetime management, queue retrieval, and message-array ownership.

Shallow embedding conventions:
* C strings are `Option String` (`none` models a NULL pointer).
* The SDK (dai::Node, dai::Device, dai::MessageQueue) is an external
  collaborator; its calls are modelled either from the spec (doc comments
  say so) or as oracle parameters.
* Machine ints hold only small scores here, so `Int` is used directly; the
  C++ `INT_MIN` best-score sentinel is modelled as `Option` (every real
  score strictly exceeds `INT_MIN`, so the first candidate always wins
  against the sentinel in both models).
-/

namespace Daic

/-- Contiguous-sublist test on char lists, used to model `std::string::find
    != npos` in `_dai_score_port_name`. -/
def subAt : List Char → List Char → Bool
  | needle, [] => needle.isEmpty
  | needle, c :: t => needle.isPrefixOf (c :: t) || subAt needle t

/-- `name.find(needle) != std::string::npos`. -/
def strHasSub (hay needle : String) : Bool :=
  subAt needle.toList hay.toList

/-- Embedding of `_dai_score_port_name` (wrapper.cpp:2867-2894): fixed
    per-name heuristic score for an output or input port name. -/
def score_port_name (name : String) (isOutput : Bool) : Int :=
  let has := fun (needle : String) => strHasSub name needle
  let s : Int := 0
  let s := if name = "out" then s + 100 else s
  if isOutput then
    let s := if has "video" then s + 90 else s
    let s := if has "preview" then s + 85 else s
    let s := if has "isp" then s + 80 else s
    let s := if has "passthrough" then s + 40 else s
    let s := if has "rgbd" then s + 70 else s
    let s := if has "pcl" then s + 60 else s
    let s := if has "depth" then s + 60 else s
    let s := if has "raw" then s - 30 else s
    let s := if has "meta" then s - 20 else s
    let s := if has "metadata" then s - 20 else s
    let s := if has "control" then s - 10 else s
    s
  else
    let s := if has "input" then s + 80 else s
    let s := if has "inColor" then s + 70 else s
    let s := if has "inDepth" then s + 70 else s
    let s := if name = "in" then s + 60 else s
    let s := if name = "inSync" then s - 10 else s
    s

/-- A port (Output or Input): name plus group; the empty group means
    "ungrouped" (fixed port). A node's port list is the union of fixed
    ports and dynamic-map entries in the stable collection order produced
    by `_dai_collect_outputs` / `_dai_collect_inputs`. -/
structure Port where
  name : String
  group : String
deriving DecidableEq, Repr

/-- A nullable C string. -/
abbrev CStr := Option String

/-- `_dai_cstr_empty` (wrapper.cpp:2863-2865). -/
def cstr_empty : CStr → Bool
  | none => true
  | some s => s == ""

/-- `_dai_group_matches` (wrapper.cpp:2926-2929): a NULL filter matches
    every group; otherwise the groups must be equal. -/
def group_matches (portGroup : String) (filterGroup : CStr) : Bool :=
  match filterGroup with
  | none => true
  | some g => portGroup == g

/-- Modelled from the spec: exact port lookup (§4.1). `getOutputRef` /
    `getInputRef` of the SDK are not under src/; per the spec the group
    defaults to ungrouped (empty) when omitted, and the lookup returns the
    unique port with that group/name pair, if any. -/
def getPortRef (ports : List Port) (group name : String) : Option Port :=
  ports.find? (fun p => p.group == group && p.name == name)

/-- The wrapper's exact-lookup pattern for a specified name
    (`out_group ? getOutputRef(group, name) : getOutputRef(name)`), where
    the one-argument form defaults the group to ungrouped. -/
def lookupName (ports : List Port) (group : CStr) (name : String) : Option Port :=
  getPortRef ports (group.getD "") name

/-- A child node as seen by the subnode search of `dai_output_link`
    (only its collected input list matters there). -/
structure SubNode where
  inputs : List Port
deriving DecidableEq, Repr

/-- A graph node: numeric identity, collected outputs and inputs (in the
    stable order of `_dai_collect_outputs` / `_dai_collect_inputs`), and
    the declared child nodes returned by `getNodeMap()`. -/
structure Node where
  id : Nat
  outputs : List Port
  inputs : List Port
  subnodes : List SubNode
deriving DecidableEq, Repr

/-- One step of the best-candidate loops: keep the current best unless the
    new score is strictly higher; an unset best (C++ `INT_MIN` sentinel)
    is always replaced. -/
def stepBest {α : Type} (acc : Option (α × Int)) (cand : α) (score : Int) :
    Option (α × Int) :=
  match acc with
  | none => some (cand, score)
  | some (b, bs) => if score > bs then some (cand, score) else some (b, bs)

/-- Combined pair score of the unnamed-link loop (wrapper.cpp:3009-3011):
    name scores plus a +2 bonus per ungrouped port. -/
def pairScore (o i : Port) : Int :=
  score_port_name o.name true + score_port_name i.name false
    + (if o.group = "" then 2 else 0) + (if i.group = "" then 2 else 0)

/-- The nested candidate loop of `dai_node_link` when neither name is
    given (wrapper.cpp:2997-3018). -/
def bestPairFold (compat : Port → Port → Bool)
    (outs ins : List Port) (out_group in_group : CStr) :
    Option ((Port × Port) × Int) :=
  outs.foldl
    (fun acc o =>
      if group_matches o.group out_group then
        ins.foldl
          (fun acc2 i =>
            if group_matches i.group in_group && compat o i then
              stepBest acc2 (o, i) (pairScore o i)
            else acc2)
          acc
      else acc)
    none

/-- Single-port score used by `_dai_pick_output_for_input` and
    `_dai_pick_input_for_output`: name score plus +2 if ungrouped. -/
def singleScore (p : Port) (isOutput : Bool) : Int :=
  score_port_name p.name isOutput + (if p.group = "" then 2 else 0)

/-- `_dai_pick_output_for_input` (wrapper.cpp:2931-2947). -/
def pick_output_for_input (compat : Port → Port → Bool)
    (fromN : Node) (input : Port) (out_group : CStr) : Option Port :=
  (fromN.outputs.foldl
    (fun acc o =>
      if group_matches o.group out_group && compat o input then
        stepBest acc o (singleScore o true)
      else acc)
    none).map Prod.fst

/-- `_dai_pick_input_for_output` (wrapper.cpp:2949-2965). -/
def pick_input_for_output (compat : Port → Port → Bool)
    (toN : Node) (output : Port) (in_group : CStr) : Option Port :=
  (toN.inputs.foldl
    (fun acc i =>
      if group_matches i.group in_group && compat output i then
        stepBest acc i (singleScore i false)
      else acc)
    none).map Prod.fst

/-- Failure outcomes of the link/unlink boundary functions, mirroring the
    distinct `last_error` messages written by the wrapper. -/
inductive LinkErr where
  | outputNotFound
  | inputNotFound
  | noCompatiblePorts
  | alreadyLinked
  | connectionNotFound
  | notLinked
deriving DecidableEq, Repr

/-- Port-pair resolution of `dai_node_link` (wrapper.cpp:2967-3030):
    exact lookups for specified names first, then the heuristic loops for
    the unspecified sides. -/
def dai_node_link_resolve (compat : Port → Port → Bool)
    (fromN : Node) (out_group out_name : CStr)
    (toN : Node) (in_group in_name : CStr) :
    Except LinkErr (Port × Port) :=
  let outSpecified := !cstr_empty out_name
  let inSpecified := !cstr_empty in_name
  let outLook : Except LinkErr (Option Port) :=
    if outSpecified then
      match lookupName fromN.outputs out_group (out_name.getD "") with
      | none => .error .outputNotFound
      | some o => .ok (some o)
    else .ok none
  match outLook with
  | .error e => .error e
  | .ok oOpt =>
    let inLook : Except LinkErr (Option Port) :=
      if inSpecified then
        match lookupName toN.inputs in_group (in_name.getD "") with
        | none => .error .inputNotFound
        | some i => .ok (some i)
      else .ok none
    match inLook with
    | .error e => .error e
    | .ok iOpt =>
      match oOpt, iOpt with
      | some o, some i => .ok (o, i)
      | none, none =>
        match bestPairFold compat fromN.outputs toN.inputs out_group in_group with
        | some (p, _) => .ok p
        | none => .error .noCompatiblePorts
      | none, some i =>
        match pick_output_for_input compat fromN i out_group with
        | some o => .ok (o, i)
        | none => .error .noCompatiblePorts
      | some o, none =>
        match pick_input_for_output compat toN o in_group with
        | some i => .ok (o, i)
        | none => .error .noCompatiblePorts

/-- A realized connection, recorded (per spec §3) with the input node's
    group/name captured at link time; node identities locate the two
    endpoints in the pipeline. -/
structure Conn where
  outNodeId : Nat
  outName : String
  outGroup : String
  inNodeId : Nat
  inName : String
  inGroup : String
deriving DecidableEq, Repr

/-- The pipeline's realized connection set, in insertion order. -/
abbrev ConnSet := List Conn

/-- Remove the first occurrence of a connection. -/
def eraseConn : ConnSet → Conn → ConnSet
  | [], _ => []
  | c :: t, x => if c = x then t else c :: eraseConn t x

/-- Modelled from the spec: `dai::Node::Output::link` (SDK, not under
    src/) realizes the connection, recording the input's group/name at
    link time (§3); linking an already-linked pair raises an SDK error
    which the wrapper catches and reports as a failure. -/
def output_link (st : ConnSet) (c : Conn) : Except LinkErr ConnSet :=
  if c ∈ st then .error .alreadyLinked else .ok (st ++ [c])

/-- Modelled from the spec: `dai::Node::Output::unlink` (SDK, not under
    src/) removes the realized connection; unlinking a pair that is not
    connected raises an SDK error which the wrapper catches. -/
def output_unlink (st : ConnSet) (c : Conn) : Except LinkErr ConnSet :=
  if c ∈ st then .ok (eraseConn st c) else .error .notLinked

/-- The connection record produced by linking output `o` of `fromN` to
    input `i` of `toN`. -/
def mkConn (fromN : Node) (o : Port) (toN : Node) (i : Port) : Conn :=
  ⟨fromN.id, o.name, o.group, toN.id, i.name, i.group⟩

/-- `dai_node_link` (wrapper.cpp:2967-3038): resolve the pair, then
    realize the connection in the pipeline state. -/
def dai_node_link (compat : Port → Port → Bool)
    (fromN : Node) (out_group out_name : CStr)
    (toN : Node) (in_group in_name : CStr) (st : ConnSet) :
    Except LinkErr ConnSet :=
  match dai_node_link_resolve compat fromN out_group out_name toN in_group in_name with
  | .error e => .error e
  | .ok (o, i) => output_link st (mkConn fromN o toN i)

/-- `o->getConnections()` for output `o` of the node with identity
    `nodeId`: the realized connections of that output, in insertion
    order. -/
def connsOf (st : ConnSet) (nodeId : Nat) (o : Port) : List Conn :=
  st.filter (fun c => c.outNodeId == nodeId && c.outName == o.name && c.outGroup == o.group)

/-- The existing-connection search of `dai_node_unlink`
    (wrapper.cpp:3070-3097): iterate the candidate outputs, then each
    output's realized connections into `toN`, filtering on the given
    group/name filters and keeping the first strictly-best-scoring
    connection (name scores only, no ungrouped bonus). -/
def unlinkSearch (st : ConnSet) (fromN : Node) (outputs : List Port)
    (out_group : CStr) (toN : Node) (in_group in_name : CStr) :
    Option ((Port × Conn) × Int) :=
  outputs.foldl
    (fun acc o =>
      if group_matches o.group out_group then
        (connsOf st fromN.id o).foldl
          (fun acc2 c =>
            if c.inNodeId == toN.id && group_matches c.inGroup in_group
                && (!(!cstr_empty in_name) || c.inName == in_name.getD "") then
              stepBest acc2 (o, c)
                (score_port_name o.name true + score_port_name c.inName false)
            else acc2)
          acc
      else acc)
    none

/-- `dai_node_unlink` (wrapper.cpp:3040-3110): exact lookups for
    specified names; unless both names were given, search the existing
    realized connections between the two nodes; tear down the selected
    connection. -/
def dai_node_unlink (fromN : Node) (out_group out_name : CStr)
    (toN : Node) (in_group in_name : CStr) (st : ConnSet) :
    Except LinkErr ConnSet :=
  let outSpecified := !cstr_empty out_name
  let inSpecified := !cstr_empty in_name
  let outLook : Except LinkErr (Option Port) :=
    if outSpecified then
      match lookupName fromN.outputs out_group (out_name.getD "") with
      | none => .error .outputNotFound
      | some o => .ok (some o)
    else .ok none
  match outLook with
  | .error e => .error e
  | .ok oOpt =>
    let inLook : Except LinkErr (Option Port) :=
      if inSpecified then
        match lookupName toN.inputs in_group (in_name.getD "") with
        | none => .error .inputNotFound
        | some i => .ok (some i)
      else .ok none
    match inLook with
    | .error e => .error e
    | .ok iOpt =>
      match oOpt, iOpt with
      | some o, some i => output_unlink st (mkConn fromN o toN i)
      | _, _ =>
        let outputs := match oOpt with
          | some o => [o]
          | none => fromN.outputs
        match unlinkSearch st fromN outputs out_group toN in_group in_name with
        | none => .error .connectionNotFound
        | some ((_, c), _) => output_unlink st c

/-- The named-input lookup attempted on one node by `dai_output_link`
    (wrapper.cpp:1432-1448): the grouped exact lookup when a group was
    given, then the ungrouped exact lookup, then — only when no group was
    given — the common dynamic-map group "inputs". -/
def try_find_on_node (inputs : List Port) (in_group : CStr) (name : String) :
    Option Port :=
  let first := match in_group with
    | some g => getPortRef inputs g name
    | none => none
  match first with
  | some i => some i
  | none =>
    match getPortRef inputs "" name with
    | some i => some i
    | none =>
      match in_group with
      | some _ => none
      | none => getPortRef inputs "inputs" name

/-- Input resolution of `dai_output_link` (wrapper.cpp:1416-1472): for a
    specified name, try the destination node itself, then each declared
    child node; otherwise run the heuristic input pick. -/
def dai_output_link_find_input (compat : Port → Port → Bool)
    (out : Port) (toN : Node) (in_group in_name : CStr) :
    Except LinkErr Port :=
  if !cstr_empty in_name then
    let nm := in_name.getD ""
    match try_find_on_node toN.inputs in_group nm with
    | some i => .ok i
    | none =>
      match toN.subnodes.findSome? (fun ch => try_find_on_node ch.inputs in_group nm) with
      | some i => .ok i
      | none => .error .inputNotFound
  else
    match pick_input_for_output compat toN out in_group with
    | some i => .ok i
    | none => .error .noCompatiblePorts

/-- `dai_output_link` (wrapper.cpp:1416-1479): resolve the destination
    input and realize the connection from the given output. -/
def dai_output_link (compat : Port → Port → Bool)
    (fromN : Node) (out : Port) (toN : Node) (in_group in_name : CStr)
    (st : ConnSet) : Except LinkErr ConnSet :=
  match dai_output_link_find_input compat out toN in_group in_name with
  | .error e => .error e
  | .ok i => output_link st (mkConn fromN out toN i)

/-- A physical device as shared by boxed handles: `strong` counts the
    outstanding `std::shared_ptr` boxes (the `use_count` of the C++
    object), `closed` is the device's open/closed flag. -/
structure Dev where
  strong : Nat
  closed : Bool
deriving DecidableEq, Repr

/-- `dai_device_delete` (wrapper.cpp:324-339): if the box holds the last
    strong reference and the device is still open, close it first
    (best-effort: `closeFails` models `isClosed`/`close` throwing, which
    is swallowed); then deallocate the box, dropping one strong
    reference. -/
def dai_device_delete (d : Dev) (closeFails : Bool) : Dev :=
  let d := if d.strong == 1 && !d.closed && !closeFails then { d with closed := true } else d
  { d with strong := d.strong - 1 }

/-- State of the device lifetime manager: the registry of devices ever
    created (by identity), the weakly-held default device, and the next
    fresh identity. A device is alive (its weak reference locks) exactly
    while it has a strong reference. -/
structure MgrState where
  devs : List (Nat × Dev)
  defaultDev : Option Nat
  nextId : Nat
deriving DecidableEq, Repr

/-- Look a device up by identity. -/
def getDev (st : MgrState) (id : Nat) : Option Dev :=
  (st.devs.find? (fun e => e.1 == id)).map Prod.snd

/-- Add one strong reference to the entry of device `id`. -/
def bumpDevs : List (Nat × Dev) → Nat → List (Nat × Dev)
  | [], _ => []
  | e :: t, id =>
    if e.1 == id then (e.1, { e.2 with strong := e.2.strong + 1 }) :: bumpDevs t id
    else e :: bumpDevs t id

/-- Add one strong reference (a new boxed handle) to device `id`. -/
def bumpStrong (st : MgrState) (id : Nat) : MgrState :=
  { st with devs := bumpDevs st.devs id }

/-- The fresh-device path of `dai_device_new` (wrapper.cpp:287-303):
    enumerate attachable devices (`enumOk` is the oracle for
    `select_first_device_info`), construct a new open device, remember it
    as the weak default, and hand out the first boxed handle. On an empty
    enumeration the wrapper reports NoDeviceAvailable and returns null. -/
def freshDevice (st : MgrState) (enumOk : Bool) : Option Nat × MgrState :=
  if enumOk then
    (some st.nextId,
      { devs := st.devs ++ [(st.nextId, ⟨1, false⟩)]
        defaultDev := some st.nextId
        nextId := st.nextId + 1 })
  else (none, st)

/-- `dai_device_new` (wrapper.cpp:271-308), under the global device lock:
    if the weakly-held default device is alive and reports itself open,
    return a new boxed handle aliasing it; otherwise (including when
    `isClosed` throws, modelled by `isClosedThrows`) fall back to
    constructing a fresh default device. -/
def dai_device_new (st : MgrState) (enumOk isClosedThrows : Bool) :
    Option Nat × MgrState :=
  match st.defaultDev with
  | some id =>
    match getDev st id with
    | some d =>
      if d.strong > 0 then
        if isClosedThrows then freshDevice st enumOk
        else if !d.closed then (some id, bumpStrong st id)
        else freshDevice st enumOk
      else freshDevice st enumOk
    | none => freshDevice st enumOk
  | none => freshDevice st enumOk

/-- Outcome of the SDK's blocking `MessageQueue::get()` (no timeout):
    modelled from the spec — it blocks until a message arrives or the
    queue closes, the latter raising an error the wrapper catches. -/
inductive BlockGetRes (α : Type) where
  | msg (m : α)
  | exn (s : String)
deriving DecidableEq, Repr

/-- Outcome of the SDK's `MessageQueue::get(timeout, timedOut&)`:
    modelled from the spec — a message, a timeout expiry (flag set), or a
    queue-closed error. -/
inductive TimedGetRes (α : Type) where
  | msg (m : α)
  | timedOut
  | exn (s : String)
deriving DecidableEq, Repr

/-- `dai_queue_get` (wrapper.cpp:3861-3884) given the pending last-error
    slot `err`: negative timeout runs the blocking SDK get; non-negative
    timeout runs the timed SDK get and maps expiry to the null sentinel
    without touching the error slot. Returns (boxed message?, error
    slot). -/
def dai_queue_get {α : Type} (timeout_ms : Int)
    (blocking : BlockGetRes α) (timed : TimedGetRes α)
    (err : Option String) : Option α × Option String :=
  if timeout_ms < 0 then
    match blocking with
    | .msg m => (some m, err)
    | .exn s => (none, some ("dai_queue_get failed: " ++ s))
  else
    match timed with
    | .timedOut => (none, err)
    | .msg m => (some m, err)
    | .exn s => (none, some ("dai_queue_get failed: " ++ s))

/-- `dai_queue_try_get` (wrapper.cpp:3886-3900): the SDK's non-blocking
    `tryGet` yields `none` immediately on an empty queue; the wrapper
    boxes a present message and returns the null sentinel otherwise,
    leaving the error slot alone. -/
def dai_queue_try_get {α : Type} (tryRes : Option α) (err : Option String) :
    Option α × Option String :=
  match tryRes with
  | none => (none, err)
  | some m => (some m, err)

/-- `dai_queue_get_frame` (wrapper.cpp:4061-4086): identical control flow
    to `dai_queue_get` for the typed image-frame retrieval. -/
def dai_queue_get_frame {φ : Type} (timeout_ms : Int)
    (blocking : BlockGetRes φ) (timed : TimedGetRes φ)
    (err : Option String) : Option φ × Option String :=
  if timeout_ms < 0 then
    match blocking with
    | .msg m => (some m, err)
    | .exn s => (none, some ("dai_queue_get_frame failed: " ++ s))
  else
    match timed with
    | .timedOut => (none, err)
    | .msg m => (some m, err)
    | .exn s => (none, some ("dai_queue_get_frame failed: " ++ s))

/-- `_DaiDatatypeArray` (wrapper.cpp:3848-3850): the element slots; a
    `none` slot is one whose handle was already taken by the caller. -/
structure DtArray (α : Type) where
  elems : List (Option α)
deriving DecidableEq, Repr

/-- `_dai_make_datatype_array` (wrapper.cpp:3852-3859): box every drained
    message into its own slot. -/
def make_datatype_array {α : Type} (msgs : List α) : DtArray α :=
  ⟨msgs.map some⟩

/-- `dai_datatype_array_take` (wrapper.cpp:4296-4309): out-of-bounds
    indices return null and leave the array unchanged; otherwise hand the
    slot's handle out and null the slot. -/
def dai_datatype_array_take {α : Type} (a : DtArray α) (i : Nat) :
    Option α × DtArray α :=
  if i < a.elems.length then
    (a.elems.getD i none, ⟨a.elems.set i none⟩)
  else
    (none, a)

/-- `dai_datatype_array_free` (wrapper.cpp:4311-4324): release every
    remaining (never-taken) element, then the array; the result lists the
    handles released. -/
def dai_datatype_array_free {α : Type} (a : DtArray α) : List α :=
  a.elems.filterMap id

/-! Concrete scenario fixtures (spec §8): a camera-like node with outputs
`raw`/`video`, a processing node with single input `in`, a composite node
whose only `x` input lives on a child, and the always-true compatibility
predicate. -/

def camNode : Node := ⟨0, [⟨"raw", ""⟩, ⟨"video", ""⟩], [], []⟩

def procNode : Node := ⟨1, [], [⟨"in", ""⟩], []⟩

def compNode : Node := ⟨2, [], [], [⟨[⟨"x", ""⟩]⟩]⟩

def srcNode : Node := ⟨3, [⟨"o", ""⟩], [], []⟩

def anyCompat : Port → Port → Bool := fun _ _ => true

/-! Helper lemmas. -/

/-- Erasing a connection appended to a set not containing it recovers the
    set. -/
theorem eraseConn_append_singleton (l : ConnSet) (c : Conn) (h : c ∉ l) :
    eraseConn (l ++ [c]) c = l := by
  induction l with
  | nil => simp [eraseConn]
  | cons a t ih =>
    have hne : a ≠ c := fun hac => h (hac ▸ List.mem_cons_self a t)
    have ht : c ∉ t := fun hct => h (List.mem_cons_of_mem a hct)
    simp [eraseConn, hne, ih ht]

/-- A fold whose step ignores every element of the list returns its
    initial accumulator. -/
theorem foldl_skip {α β : Type} (f : β → α → β) (l : List α) (b : β)
    (h : ∀ x ∈ l, ∀ acc, f acc x = acc) : l.foldl f b = b := by
  induction l generalizing b with
  | nil => rfl
  | cons a t ih =>
    rw [List.foldl_cons, h a (List.mem_cons_self a t) b]
    exact ih b (fun x hx acc => h x (List.mem_cons_of_mem a hx) acc)

/-- C1 (counterexample): the claim places `passthrough` among the
    secondary/raw/metadata keywords scoring −10 to −30, but
    `_dai_score_port_name` gives an output name containing `passthrough`
    a +40 bonus. -/
theorem C1_counterexample :
    score_port_name "passthrough" true = 40
      ∧ ¬(-30 ≤ score_port_name "passthrough" true
            ∧ score_port_name "passthrough" true ≤ -10) := by
  decide

/-- C1 (amended): with no name filters, each type-compatible pair is
    scored by summing per-name output and input scores from the fixed
    table — exact "out" +100, exact "in" +60, primary media keywords
    video +90 / preview +85 / isp +80 / rgbd +70 / pcl +60 / depth +60 /
    input +80 / inColor +70 / inDepth +70, penalties raw −30 / meta −20
    (a name containing "metadata" also contains "meta" and totals −40) /
    control −10 / exact "inSync" −10 — while `passthrough` is a +40
    bonus, not a −10..−30 penalty; a +2 bonus applies per ungrouped port,
    and the strictly highest-scoring pair is selected: for outputs
    {raw, video} and single input "in", (video, in) wins. -/
theorem C1_amended_scoring :
    dai_node_link_resolve anyCompat camNode none none procNode none none
        = .ok (⟨"video", ""⟩, ⟨"in", ""⟩)
      ∧ score_port_name "out" true = 100
      ∧ score_port_name "in" false = 60
      ∧ score_port_name "video" true = 90
      ∧ score_port_name "preview" true = 85
      ∧ score_port_name "isp" true = 80
      ∧ score_port_name "rgbd" true = 70
      ∧ score_port_name "pcl" true = 60
      ∧ score_port_name "depth" true = 60
      ∧ score_port_name "input" false = 80
      ∧ score_port_name "inColor" false = 70
      ∧ score_port_name "inDepth" false = 70
      ∧ score_port_name "raw" true = -30
      ∧ score_port_name "meta" true = -20
      ∧ score_port_name "metadata" true = -40
      ∧ score_port_name "control" true = -10
      ∧ score_port_name "inSync" false = -10
      ∧ score_port_name "passthrough" true = 40
      ∧ pairScore ⟨"video", ""⟩ ⟨"in", ""⟩ = 154
      ∧ pairScore ⟨"raw", ""⟩ ⟨"in", ""⟩ = 34 :=
  ⟨rfl, by decide⟩

/-- C2: releasing a handle always deallocates it (strong count drops by
    one); the device transitions to closed exactly on the release of the
    last handle of a still-open device whose close call succeeds — a
    close failure does not block deallocation, a non-last release never
    closes, and an already-closed device stays closed. -/
theorem C2_close_on_last_release (d : Dev) (closeFails : Bool) :
    (dai_device_delete d closeFails).strong = d.strong - 1
      ∧ (d.strong = 1 → d.closed = false → closeFails = false →
          (dai_device_delete d closeFails).closed = true)
      ∧ (d.strong ≠ 1 → (dai_device_delete d closeFails).closed = d.closed)
      ∧ (d.closed = true → (dai_device_delete d closeFails).closed = true)
      ∧ (closeFails = true → (dai_device_delete d closeFails).closed = d.closed) := by
  refine ⟨?_, ?_, ?_, ?_, ?_⟩ <;>
    · intros
      simp only [dai_device_delete]
      split <;> simp_all

/-- C2 witness: releasing the single handle of an open device closes it
    and deallocates; releasing one of two handles does not close. -/
theorem C2_witness :
    (dai_device_delete ⟨1, false⟩ false).closed = true
      ∧ (dai_device_delete ⟨2, false⟩ false).closed = false
      ∧ (dai_device_delete ⟨1, false⟩ true).strong = 0 :=
  ⟨(C2_close_on_last_release ⟨1, false⟩ false).2.1 rfl rfl rfl,
   (C2_close_on_last_release ⟨2, false⟩ false).2.2.1 (by decide),
   (C2_close_on_last_release ⟨1, false⟩ true).1⟩

/-- Selecting by identity commutes with the strong-count bump. -/
theorem find_bump (l : List (Nat × Dev)) (id : Nat) :
    (bumpDevs l id).find? (fun e => e.1 == id)
      = (l.find? (fun e => e.1 == id)).map
          (fun e => (e.1, { e.2 with strong := e.2.strong + 1 })) := by
  induction l with
  | nil => rfl
  | cons a t ih =>
    cases hb : (a.1 == id) with
    | true =>
      simp only [bumpDevs, if_pos hb, List.find?, hb]
      rfl
    | false =>
      simp only [bumpDevs, hb, Bool.false_eq_true, if_false, List.find?]
      exact ih

/-- Looking up the bumped identity returns the device with one more
    strong reference. -/
theorem getDev_bumpStrong (st : MgrState) (id : Nat) :
    getDev (bumpStrong st id) id
      = (getDev st id).map (fun d => { d with strong := d.strong + 1 }) := by
  unfold getDev bumpStrong
  rw [find_bump]
  cases st.devs.find? (fun e => e.1 == id) <;> rfl

/-- Bumping a strong count does not move the weak default. -/
theorem defaultDev_bumpStrong (st : MgrState) (id : Nat) :
    (bumpStrong st id).defaultDev = st.defaultDev := rfl

/-- After a successful fresh-device construction the new device is the
    weak default, is alive, and reports itself open. -/
theorem fresh_key (st st1 : MgrState) (e1 : Bool) (id : Nat)
    (hfresh : getDev st st.nextId = none)
    (h1 : freshDevice st e1 = (some id, st1)) :
    st1.defaultDev = some id ∧ getDev st1 id = some ⟨1, false⟩ := by
  unfold freshDevice at h1
  cases e1 with
  | false => simp at h1
  | true =>
    rw [if_pos rfl, Prod.mk.injEq] at h1
    obtain ⟨hid, hst⟩ := h1
    have hid2 : st.nextId = id := Option.some.inj hid
    subst hid2
    subst hst
    refine ⟨rfl, ?_⟩
    unfold getDev at hfresh ⊢
    have hnone : st.devs.find? (fun e => e.1 == st.nextId) = none :=
      Option.map_eq_none'.mp hfresh
    simp [List.find?_append, hnone, List.find?]

/-- C3: with the default-device slot well-formed (the next fresh identity
    unused), a second `dai_device_new` immediately after a successful one
    — no release in between, `isClosed` succeeding — returns a handle to
    the same underlying device, merely adding a strong reference instead
    of opening a new physical connection. -/
theorem C3_default_device_reuse (st st1 : MgrState) (e1 e2 : Bool) (id : Nat)
    (hfresh : getDev st st.nextId = none)
    (h1 : dai_device_new st e1 false = (some id, st1)) :
    dai_device_new st1 e2 false = (some id, bumpStrong st1 id) := by
  have key : st1.defaultDev = some id
      ∧ ∃ d, getDev st1 id = some d ∧ 0 < d.strong ∧ d.closed = false := by
    unfold dai_device_new at h1
    cases hdef : st.defaultDev with
    | none =>
      simp only [hdef] at h1
      have := fresh_key st st1 e1 id hfresh h1
      exact ⟨this.1, ⟨1, false⟩, this.2, by decide, rfl⟩
    | some id0 =>
      simp only [hdef] at h1
      cases hget : getDev st id0 with
      | none =>
        simp only [hget] at h1
        have := fresh_key st st1 e1 id hfresh h1
        exact ⟨this.1, ⟨1, false⟩, this.2, by decide, rfl⟩
      | some d0 =>
        simp only [hget] at h1
        by_cases hs : 0 < d0.strong
        · rw [if_pos hs] at h1
          simp only [Bool.false_eq_true, if_false] at h1
          by_cases hc : d0.closed
          · rw [hc] at h1
            simp only [Bool.not_true, Bool.false_eq_true, if_false] at h1
            have := fresh_key st st1 e1 id hfresh h1
            exact ⟨this.1, ⟨1, false⟩, this.2, by decide, rfl⟩
          · have hc2 : d0.closed = false := Bool.eq_false_iff.mpr hc
            rw [hc2] at h1
            simp only [Bool.not_false, if_true] at h1
            have hid : id0 = id := Option.some.inj (congrArg Prod.fst h1)
            have hst : bumpStrong st id0 = st1 := congrArg Prod.snd h1
            subst hid
            refine ⟨?_, ?_⟩
            · rw [← hst, defaultDev_bumpStrong, hdef]
            · refine ⟨{ d0 with strong := d0.strong + 1 }, ?_, Nat.succ_pos _, hc2⟩
              rw [← hst, getDev_bumpStrong, hget]
              rfl
        · rw [if_neg hs] at h1
          have := fresh_key st st1 e1 id hfresh h1
          exact ⟨this.1, ⟨1, false⟩, this.2, by decide, rfl⟩
  obtain ⟨hdef1, d, hget1, hstrong, hclosed⟩ := key
  unfold dai_device_new
  simp only [hdef1, hget1]
  rw [if_pos hstrong]
  simp [hclosed]

/-- C3 witness: starting from an empty manager, the first acquisition
    creates device 0 and the second hands back a handle aliasing it. -/
theorem C3_witness :
    dai_device_new ⟨[(0, ⟨1, false⟩)], some 0, 1⟩ true false
      = (some 0, bumpStrong ⟨[(0, ⟨1, false⟩)], some 0, 1⟩ 0) :=
  C3_default_device_reuse ⟨[], none, 0⟩ ⟨[(0, ⟨1, false⟩)], some 0, 1⟩ true true 0 rfl rfl

/-- If the extended direct search of `dai_output_link` finds nothing on a
    node, the plain exact lookup used by `dai_node_link`/`dai_node_unlink`
    finds nothing either. -/
theorem try_find_none_imp_lookup_none (inputs : List Port) (ig : CStr) (nm : String)
    (h : try_find_on_node inputs ig nm = none) :
    lookupName inputs ig nm = none := by
  unfold try_find_on_node at h
  unfold lookupName
  cases ig with
  | none =>
    simp only [Option.getD] at h ⊢
    cases hu : getPortRef inputs "" nm with
    | none => rfl
    | some i => rw [hu] at h; simp at h
  | some g =>
    simp only [Option.getD] at h ⊢
    cases hg : getPortRef inputs g nm with
    | none => rfl
    | some i => rw [hg] at h; simp at h

/-- C4 (counterexample): destination node 2 has no direct input named
    `x`, but its child does; the node-level link and unlink still fail
    with input-not-found without consulting the child, while the
    output-level link does find the child's input. -/
theorem C4_counterexample :
    dai_node_link anyCompat srcNode none none compNode none (some "x") [] = .error .inputNotFound
      ∧ dai_node_unlink srcNode none none compNode none (some "x") [] = .error .inputNotFound
      ∧ dai_output_link anyCompat srcNode ⟨"o", ""⟩ compNode none (some "x") []
          = .ok [⟨3, "o", "", 2, "x", ""⟩] :=
  ⟨rfl, rfl, rfl⟩

/-- C4 (amended): only the output-level link entry point repeats the
    named-input search against each declared child of the destination
    before failing; the node-level link and unlink fail with a not-found
    outcome as soon as the exact lookup on the destination node itself
    misses, never consulting children. -/
theorem C4_child_search_only_output_link (compat : Port → Port → Bool)
    (out : Port) (fromN toN : Node) (og ig : CStr) (nm : String) (st : ConnSet)
    (hnm : nm ≠ "")
    (hdir : try_find_on_node toN.inputs ig nm = none) :
    (dai_output_link_find_input compat out toN ig (some nm)
        = match toN.subnodes.findSome? (fun ch => try_find_on_node ch.inputs ig nm) with
          | some i => .ok i
          | none => .error .inputNotFound)
      ∧ (dai_node_link compat fromN og none toN ig (some nm) st = .error .inputNotFound)
      ∧ (dai_node_unlink fromN og none toN ig (some nm) st = .error .inputNotFound) := by
  have hlook : lookupName toN.inputs ig nm = none :=
    try_find_none_imp_lookup_none toN.inputs ig nm hdir
  have hspec : cstr_empty (some nm) = false := by
    simp [cstr_empty, hnm]
  have hbe : (nm == "") = false := beq_eq_false_iff_ne.mpr hnm
  refine ⟨?_, ?_, ?_⟩
  · unfold dai_output_link_find_input
    rw [hspec]
    simp only [Bool.not_false, if_true, Option.getD, hdir]
  · simp [dai_node_link, dai_node_link_resolve, cstr_empty, hbe, hlook]
  · simp [dai_node_unlink, cstr_empty, hbe, hlook]

/-- C4 witness: the amended behavior at the concrete composite node. -/
theorem C4_witness :
    dai_output_link_find_input anyCompat ⟨"o", ""⟩ compNode none (some "x")
        = (match compNode.subnodes.findSome? (fun ch => try_find_on_node ch.inputs none "x") with
           | some i => Except.ok i
           | none => Except.error LinkErr.inputNotFound)
      ∧ dai_node_link anyCompat srcNode none none compNode none (some "x") [] = .error .inputNotFound :=
  ⟨(C4_child_search_only_output_link anyCompat ⟨"o", ""⟩ srcNode compNode none none "x" []
      (by decide) rfl).1,
   (C4_child_search_only_output_link anyCompat ⟨"o", ""⟩ srcNode compNode none none "x" []
      (by decide) rfl).2.1⟩

/-- When both names are specified, resolution is exactly the pair of
    exact lookups: no compatibility check, no scoring. -/
theorem resolve_both_specified (compat : Port → Port → Bool)
    (fromN toN : Node) (og ig : CStr) (onm inm : String)
    (ho : onm ≠ "") (hi : inm ≠ "") :
    dai_node_link_resolve compat fromN og (some onm) toN ig (some inm)
      = match lookupName fromN.outputs og onm, lookupName toN.inputs ig inm with
        | some o, some i => .ok (o, i)
        | none, _ => .error .outputNotFound
        | some _, none => .error .inputNotFound := by
  have hbo : (onm == "") = false := beq_eq_false_iff_ne.mpr ho
  have hbi : (inm == "") = false := beq_eq_false_iff_ne.mpr hi
  unfold dai_node_link_resolve
  simp only [cstr_empty, hbo, hbi, Bool.not_false, if_true, Option.getD]
  cases lookupName fromN.outputs og onm <;> cases lookupName toN.inputs ig inm <;> rfl

/-- When both names are specified, unlink is exact lookups followed by
    the direct teardown, skipping the connection search. -/
theorem unlink_both_specified (fromN toN : Node) (og ig : CStr)
    (onm inm : String) (st : ConnSet)
    (ho : onm ≠ "") (hi : inm ≠ "") :
    dai_node_unlink fromN og (some onm) toN ig (some inm) st
      = match lookupName fromN.outputs og onm, lookupName toN.inputs ig inm with
        | some o, some i => output_unlink st (mkConn fromN o toN i)
        | none, _ => .error .outputNotFound
        | some _, none => .error .inputNotFound := by
  have hbo : (onm == "") = false := beq_eq_false_iff_ne.mpr ho
  have hbi : (inm == "") = false := beq_eq_false_iff_ne.mpr hi
  unfold dai_node_unlink
  simp only [cstr_empty, hbo, hbi, Bool.not_false, if_true, Option.getD]
  cases lookupName fromN.outputs og onm <;> cases lookupName toN.inputs ig inm <;> rfl

/-- C5: an explicit output name always wins — whenever the named output
    exists, any successfully resolved pair uses exactly that output, for
    every compatibility predicate; and when the input name is also given,
    resolution is pure exact lookup (independent of compatibility and
    scoring). -/
theorem C5_explicit_name_wins (compat : Port → Port → Bool)
    (fromN toN : Node) (og ig inm : CStr) (onm : String) (p : Port)
    (ho : onm ≠ "")
    (hfound : lookupName fromN.outputs og onm = some p) :
    (∀ o i, dai_node_link_resolve compat fromN og (some onm) toN ig inm = .ok (o, i) → o = p)
      ∧ (∀ nm2, nm2 ≠ "" → inm = some nm2 →
          dai_node_link_resolve compat fromN og (some onm) toN ig inm
            = match lookupName toN.inputs ig nm2 with
              | some i => .ok (p, i)
              | none => .error .inputNotFound) := by
  have hco : cstr_empty (some onm) = false := by simp [cstr_empty, ho]
  constructor
  · intro o i hres
    unfold dai_node_link_resolve at hres
    cases hins : (!cstr_empty inm) with
    | true =>
      simp only [hco, Bool.not_false, if_true, Option.getD_some, hfound, hins] at hres
      cases hlk : lookupName toN.inputs ig (inm.getD "") with
      | none => rw [hlk] at hres; simp at hres
      | some i0 =>
        rw [hlk] at hres
        exact (congrArg Prod.fst (Except.ok.inj hres)).symm
    | false =>
      simp only [hco, Bool.not_false, if_true, Option.getD_some, hfound, hins,
        Bool.false_eq_true, if_false] at hres
      cases hpk : pick_input_for_output compat toN p ig with
      | none => rw [hpk] at hres; simp at hres
      | some i0 =>
        rw [hpk] at hres
        exact (congrArg Prod.fst (Except.ok.inj hres)).symm
  · intro nm2 hnm2 hinm
    subst hinm
    rw [resolve_both_specified compat fromN toN og ig onm nm2 ho hnm2]
    rw [hfound]
    cases lookupName toN.inputs ig nm2 <;> rfl

/-- C5 witness: with outputs {raw, video} and explicit name "raw", the
    lower-scoring "raw" is still chosen for any resolved pair. -/
theorem C5_witness :
    (∀ o i, dai_node_link_resolve anyCompat camNode none (some "raw") procNode none (some "in")
        = .ok (o, i) → o = ⟨"raw", ""⟩)
      ∧ dai_node_link_resolve anyCompat camNode none (some "raw") procNode none (some "in")
          = .ok (⟨"raw", ""⟩, ⟨"in", ""⟩) :=
  ⟨(C5_explicit_name_wins anyCompat camNode procNode none none (some "in") "raw" ⟨"raw", ""⟩
      (by decide) rfl).1,
   by
    rw [(C5_explicit_name_wins anyCompat camNode procNode none none (some "in") "raw" ⟨"raw", ""⟩
      (by decide) rfl).2 "in" (by decide) rfl]
    rfl⟩

/-- C6: a successful named link followed by a named unlink with the same
    arguments restores the realized connection set exactly. -/
theorem C6_link_unlink_roundtrip (compat : Port → Port → Bool)
    (fromN toN : Node) (og ig : CStr) (onm inm : String)
    (ho : onm ≠ "") (hi : inm ≠ "")
    (st st2 : ConnSet)
    (hlink : dai_node_link compat fromN og (some onm) toN ig (some inm) st = .ok st2) :
    dai_node_unlink fromN og (some onm) toN ig (some inm) st2 = .ok st := by
  unfold dai_node_link at hlink
  rw [resolve_both_specified compat fromN toN og ig onm inm ho hi] at hlink
  rw [unlink_both_specified fromN toN og ig onm inm st2 ho hi]
  cases hlo : lookupName fromN.outputs og onm with
  | none => rw [hlo] at hlink; exact absurd hlink (by simp)
  | some o =>
    rw [hlo] at hlink
    cases hli : lookupName toN.inputs ig inm with
    | none => rw [hli] at hlink; exact absurd hlink (by simp)
    | some i =>
      rw [hli] at hlink
      simp only [] at hlink
      unfold output_link at hlink
      by_cases hmem : mkConn fromN o toN i ∈ st
      · rw [if_pos hmem] at hlink; exact absurd hlink (by simp)
      · rw [if_neg hmem] at hlink
        have hst2 : st ++ [mkConn fromN o toN i] = st2 := Except.ok.inj hlink
        show (if mkConn fromN o toN i ∈ st2 then
            Except.ok (eraseConn st2 (mkConn fromN o toN i))
          else Except.error LinkErr.notLinked) = Except.ok st
        rw [if_pos (hst2 ▸ List.mem_append_right st (List.mem_singleton.mpr rfl))]
        rw [← hst2, eraseConn_append_singleton st (mkConn fromN o toN i) hmem]

/-- C6 witness: linking (video, in) by name on an empty connection set
    and unlinking with the same arguments restores the empty set. -/
theorem C6_witness :
    dai_node_unlink camNode none (some "video") procNode none (some "in")
        [⟨0, "video", "", 1, "in", ""⟩] = .ok [] :=
  C6_link_unlink_roundtrip anyCompat camNode procNode none none "video" "in"
    (by decide) (by decide) [] [⟨0, "video", "", 1, "in", ""⟩] rfl


/-- Taking the present slot `i` nulls exactly that slot. -/
theorem getD_set_none {α : Type} (l : List (Option α)) (i : Nat) (h : i < l.length) :
    (l.set i none).getD i none = none := by
  induction l generalizing i with
  | nil => simp at h
  | cons x t ih =>
    cases i with
    | zero => rfl
    | succ j =>
      simp only [List.set, List.getD, List.get?]
      exact ih j (Nat.lt_of_succ_lt_succ h)

/-- Nulling a slot that held `m` removes exactly one `m` from the
    collection of live elements. -/
theorem perm_filterMap_set {α : Type} (l : List (Option α)) (i : Nat) (m : α)
    (h : l.getD i none = some m) :
    (m :: (l.set i none).filterMap id).Perm (l.filterMap id) := by
  induction l generalizing i with
  | nil => simp [List.getD] at h
  | cons x t ih =>
    cases i with
    | zero =>
      have hx : x = some m := h
      subst hx
      simp only [List.set, List.filterMap_cons, id]
      exact List.Perm.refl _
    | succ j =>
      have ht : t.getD j none = some m := h
      cases x with
      | none =>
        simp only [List.set, List.filterMap_cons, id]
        exact ih j ht
      | some y =>
        simp only [List.set, List.filterMap_cons, id]
        exact (List.Perm.swap y m _).trans ((ih j ht).cons y)

/-- C8: queue retrieval outcomes — a non-negative timeout that expires
    yields the null "no message" sentinel and leaves the error slot
    untouched (timeout is not an error); a delivered message is handed
    out boxed; a negative timeout ignores the timed path entirely
    (it blocks on the SDK until a message or queue closure) and returns a
    delivered message boxed; `try_get` returns the null sentinel
    immediately on an empty queue; the typed frame variant treats expiry
    the same way. -/
theorem C8_queue_get_timeout {α : Type} (t : Int)
    (b : BlockGetRes α) (timed timed2 : TimedGetRes α) (err : Option String) :
    (0 ≤ t → timed = .timedOut → dai_queue_get t b timed err = (none, err))
      ∧ (0 ≤ t → ∀ m, timed = .msg m → dai_queue_get t b timed err = (some m, err))
      ∧ (t < 0 → dai_queue_get t b timed err = dai_queue_get t b timed2 err)
      ∧ (t < 0 → ∀ m, b = .msg m → dai_queue_get t b timed err = (some m, err))
      ∧ dai_queue_try_get (none : Option α) err = (none, err)
      ∧ (0 ≤ t → timed = .timedOut → dai_queue_get_frame t b timed err = (none, err)) := by
  refine ⟨?_, ?_, ?_, ?_, rfl, ?_⟩
  · intro ht htm
    subst htm
    unfold dai_queue_get
    rw [if_neg (by omega)]
  · intro ht m htm
    subst htm
    unfold dai_queue_get
    rw [if_neg (by omega)]
  · intro ht
    unfold dai_queue_get
    rw [if_pos ht, if_pos ht]
  · intro ht m hb
    subst hb
    unfold dai_queue_get
    rw [if_pos ht]
  · intro ht htm
    subst htm
    unfold dai_queue_get_frame
    rw [if_neg (by omega)]

/-- C8 witness: a zero timeout that expires returns no message and no
    error; a blocked negative-timeout call delivers the message. -/
theorem C8_witness :
    dai_queue_get (α := Nat) 0 (.msg 7) .timedOut none = (none, none)
      ∧ dai_queue_get (α := Nat) (-1) (.msg 7) .timedOut none = (some 7, none)
      ∧ dai_queue_try_get (none : Option Nat) none = (none, none) :=
  ⟨(C8_queue_get_timeout 0 (.msg 7) .timedOut .timedOut none).1 (by decide) rfl,
   (C8_queue_get_timeout (-1) (.msg 7) .timedOut .timedOut none).2.2.2.1 (by decide) 7 rfl,
   (C8_queue_get_timeout (α := Nat) 0 (.msg 7) .timedOut .timedOut none).2.2.2.2.1⟩

/-- C10: array-element ownership — a successful take at index `i` nulls
    the slot so a second take at `i` returns null; the handles released
    by freeing the post-take array are exactly the original live handles
    minus the taken one; and an out-of-bounds take returns null and
    leaves the array unchanged. -/
theorem C10_array_take_once {α : Type} (a : DtArray α) (i : Nat) (m : α)
    (h : (dai_datatype_array_take a i).1 = some m) :
    ((dai_datatype_array_take (dai_datatype_array_take a i).2 i).1 = none)
      ∧ (m :: dai_datatype_array_free (dai_datatype_array_take a i).2).Perm
          (dai_datatype_array_free a)
      ∧ (∀ j, a.elems.length ≤ j → dai_datatype_array_take a j = (none, a)) := by
  by_cases hi : i < a.elems.length
  · have htake : dai_datatype_array_take a i = (a.elems.getD i none, ⟨a.elems.set i none⟩) := by
      unfold dai_datatype_array_take
      rw [if_pos hi]
    have hm : a.elems.getD i none = some m := by
      rw [htake] at h
      exact h
    refine ⟨?_, ?_, ?_⟩
    · rw [htake]
      unfold dai_datatype_array_take
      rw [if_pos (by simpa using hi)]
      exact getD_set_none a.elems i hi
    · rw [htake]
      exact perm_filterMap_set a.elems i m hm
    · intro j hj
      unfold dai_datatype_array_take
      rw [if_neg (by omega)]
  · exfalso
    unfold dai_datatype_array_take at h
    rw [if_neg hi] at h
    simp at h

/-- C10 witness: take element 0 of a two-element array; retaking yields
    null, and freeing releases exactly the untaken element. -/
theorem C10_witness :
    ((dai_datatype_array_take (dai_datatype_array_take (make_datatype_array [5, 9]) 0).2 0).1
        = (none : Option Nat))
      ∧ (5 :: dai_datatype_array_free (dai_datatype_array_take (make_datatype_array [5, 9]) 0).2).Perm
          (dai_datatype_array_free (make_datatype_array [5, 9]))
      ∧ dai_datatype_array_take (make_datatype_array [5, 9]) 2 = (none, make_datatype_array [5, 9]) :=
  ⟨(C10_array_take_once (make_datatype_array [5, 9]) 0 5 rfl).1,
   (C10_array_take_once (make_datatype_array [5, 9]) 0 5 rfl).2.1,
   (C10_array_take_once (make_datatype_array [5, 9]) 0 5 rfl).2.2 2 (by decide)⟩


/-- The possible sources of a best-candidate step result: the new
    candidate, or a value already in the accumulator. -/
theorem stepBest_cases {α : Type} (acc : Option (α × Int)) (cand : α) (sc : Int)
    (x : α) (sx : Int) (h : stepBest acc cand sc = some (x, sx)) :
    x = cand ∨ ∃ sb, acc = some (x, sb) := by
  cases acc with
  | none =>
    have hp : (cand, sc) = (x, sx) := Option.some.inj h
    exact Or.inl (congrArg Prod.fst hp).symm
  | some b =>
    obtain ⟨b1, b2⟩ := b
    have h2 : (if sc > b2 then some (cand, sc) else some (b1, b2)) = some (x, sx) := h
    by_cases hgt : sc > b2
    · rw [if_pos hgt] at h2
      exact Or.inl (congrArg Prod.fst (Option.some.inj h2)).symm
    · rw [if_neg hgt] at h2
      have hb1 : b1 = x := congrArg Prod.fst (Option.some.inj h2)
      subst hb1
      exact Or.inr ⟨b2, rfl⟩

/-- With no realized connection from `fromN` into `toN`, the unlink
    search finds nothing. -/
theorem unlinkSearch_empty (st : ConnSet) (fromN : Node) (outs : List Port)
    (og : CStr) (toN : Node) (ig inm : CStr)
    (hempty : ∀ c ∈ st, ¬(c.outNodeId = fromN.id ∧ c.inNodeId = toN.id)) :
    unlinkSearch st fromN outs og toN ig inm = none := by
  unfold unlinkSearch
  apply foldl_skip
  intro o ho acc
  split
  · apply foldl_skip
    intro c hc acc2
    obtain ⟨hcst, hpred⟩ := List.mem_filter.mp hc
    have hout : c.outNodeId = fromN.id := by
      simp only [Bool.and_eq_true, beq_iff_eq] at hpred
      exact hpred.1.1
    have hne : c.inNodeId ≠ toN.id := by
      intro he
      exact hempty c hcst ⟨hout, he⟩
    have hcond : (c.inNodeId == toN.id) = false := beq_eq_false_iff_ne.mpr hne
    simp [hcond]
  · rfl

/-- Every pair produced by the unlink search is an existing realized
    connection leaving `fromN` and entering `toN`. -/
theorem unlinkSearch_sound (st : ConnSet) (fromN : Node) (outs : List Port)
    (og : CStr) (toN : Node) (ig inm : CStr) :
    ∀ o c sc, unlinkSearch st fromN outs og toN ig inm = some ((o, c), sc) →
      c ∈ st ∧ c.outNodeId = fromN.id ∧ c.inNodeId = toN.id := by
  unfold unlinkSearch
  refine List.foldlRecOn (motive := fun acc => ∀ o c sc, acc = some ((o, c), sc) →
      c ∈ st ∧ c.outNodeId = fromN.id ∧ c.inNodeId = toN.id) outs _ none ?_ ?_
  · intro o c sc h
    exact absurd h (by simp)
  · intro acc hacc o ho
    split
    · refine List.foldlRecOn (motive := fun acc => ∀ o c sc, acc = some ((o, c), sc) →
          c ∈ st ∧ c.outNodeId = fromN.id ∧ c.inNodeId = toN.id)
        (connsOf st fromN.id o) _ acc hacc ?_
      intro acc2 hacc2 c hc
      split
      next hcnd =>
        intro o2 c2 sc2 hs
        rcases stepBest_cases acc2 (o, c) _ (o2, c2) sc2 hs with heq | ⟨sb, hb⟩
        · have hc2 : c2 = c := congrArg Prod.snd heq
          subst hc2
          obtain ⟨hcst, hpred⟩ := List.mem_filter.mp hc
          have hout : c2.outNodeId = fromN.id := by
            simp only [Bool.and_eq_true, beq_iff_eq] at hpred
            exact hpred.1.1
          have hin : c2.inNodeId = toN.id := by
            simp only [Bool.and_eq_true, beq_iff_eq] at hcnd
            exact hcnd.1.1
          exact ⟨hcst, hout, hin⟩
        · exact hacc2 o2 c2 sb hb
      next => exact hacc2
    · exact hacc

/-- Fixtures for the unlink tie-breaking scenario: two realized
connections whose per-name score sums tie at 120, where link's pair score
(with the +2 ungrouped bonuses) strictly prefers the second. -/

def depthNode : Node := ⟨4, [⟨"depth", "g"⟩, ⟨"pcl", ""⟩], [], []⟩

def sinkNode : Node := ⟨5, [], [⟨"in", ""⟩], []⟩

def tieConns : ConnSet :=
  [⟨4, "depth", "g", 5, "in", ""⟩, ⟨4, "pcl", "", 5, "in", ""⟩]


/-- Combined score as a function of the candidate pair. -/
def ppScore (p : Port × Port) : Int := pairScore p.1 p.2

/-- The candidate pairs the unnamed-link loop ranges over, in iteration
    order: group-matching outputs (outer), then group-matching compatible
    inputs (inner). -/
def candList (compat : Port → Port → Bool) (outs ins : List Port)
    (og ig : CStr) : List (Port × Port) :=
  (outs.filter (fun o => group_matches o.group og)).flatMap
    (fun o =>
      (ins.filter (fun i => group_matches i.group ig && compat o i)).map (fun i => (o, i)))

/-- A guarded fold equals the fold over the filtered list. -/
theorem foldl_filter_cond {α β : Type} (p : α → Bool) (g : β → α → β)
    (l : List α) (b : β) :
    l.foldl (fun acc a => if p a then g acc a else acc) b
      = (l.filter p).foldl g b := by
  induction l generalizing b with
  | nil => rfl
  | cons a t ih =>
    cases hp : p a with
    | true =>
      rw [List.foldl_cons, if_pos hp, List.filter_cons, if_pos hp, List.foldl_cons]
      exact ih (g b a)
    | false =>
      rw [List.foldl_cons, if_neg (by simp [hp]), List.filter_cons, if_neg (by simp [hp])]
      exact ih b

/-- Folding over a flatMap is the nested fold. -/
theorem foldl_flatMap_eq {α β γ : Type} (f : α → List γ) (g : β → γ → β)
    (l : List α) (b : β) :
    (l.flatMap f).foldl g b = l.foldl (fun acc a => (f a).foldl g acc) b := by
  induction l generalizing b with
  | nil => rfl
  | cons a t ih =>
    rw [show (a :: t).flatMap f = f a ++ t.flatMap f from rfl, List.foldl_append, List.foldl_cons]
    exact ih ((f a).foldl g b)

/-- Folds with pointwise-equal step functions agree. -/
theorem foldl_ext {α β : Type} (f g : β → α → β) (l : List α) (b : β)
    (h : ∀ acc, ∀ a ∈ l, f acc a = g acc a) : l.foldl f b = l.foldl g b := by
  induction l generalizing b with
  | nil => rfl
  | cons a t ih =>
    rw [List.foldl_cons, List.foldl_cons, h b a (List.mem_cons_self a t)]
    exact ih (g b a) (fun acc x hx => h acc x (List.mem_cons_of_mem a hx))

/-- The unnamed-link candidate loop is the first-strict-max fold over the
    candidate pair list in iteration order. -/
theorem bestPairFold_eq (compat : Port → Port → Bool) (outs ins : List Port)
    (og ig : CStr) :
    bestPairFold compat outs ins og ig
      = (candList compat outs ins og ig).foldl
          (fun acc p => stepBest acc p (ppScore p)) none := by
  unfold bestPairFold candList
  rw [foldl_filter_cond (fun o => group_matches o.group og)
    (fun acc o =>
      ins.foldl
        (fun acc2 i =>
          if group_matches i.group ig && compat o i then
            stepBest acc2 (o, i) (pairScore o i)
          else acc2)
        acc)
    outs none]
  rw [foldl_flatMap_eq]
  apply foldl_ext
  intro acc o ho
  rw [List.foldl_map]
  rw [foldl_filter_cond (fun i => group_matches i.group ig && compat o i)
    (fun acc2 i => stepBest acc2 (o, i) (pairScore o i)) ins acc]
  rfl

/-- Invariant of the first-strict-max fold from a seeded accumulator:
    the result either is the seed dominating the rest, or the first
    element strictly above the seed and everything before it, with
    nothing after it strictly above. -/
theorem pickBest_go {α : Type} (score : α → Int) (l : List α) :
    ∀ (b0 res : α) (s : Int),
      l.foldl (fun acc p => stepBest acc p (score p)) (some (b0, score b0)) = some (res, s) →
      s = score res
        ∧ ((res = b0 ∧ ∀ p ∈ l, score p ≤ score b0)
            ∨ ∃ l1 l2, l = l1 ++ res :: l2 ∧ score b0 < score res
                ∧ (∀ p ∈ l1, score p < score res) ∧ (∀ p ∈ l2, score p ≤ score res)) := by
  induction l with
  | nil =>
    intro b0 res s h
    have hp := Option.some.inj h
    rw [Prod.mk.injEq] at hp
    obtain ⟨h1, h2⟩ := hp
    subst h1
    exact ⟨h2.symm, Or.inl ⟨rfl, fun p hp => absurd hp (List.not_mem_nil p)⟩⟩
  | cons a t ih =>
    intro b0 res s h
    rw [List.foldl_cons] at h
    by_cases hgt : score a > score b0
    · have hstep : stepBest (some (b0, score b0)) a (score a) = some (a, score a) := by
        show (if score a > score b0 then some (a, score a) else some (b0, score b0))
          = some (a, score a)
        rw [if_pos hgt]
      rw [hstep] at h
      obtain ⟨hs, hcase⟩ := ih a res s h
      refine ⟨hs, Or.inr ?_⟩
      rcases hcase with ⟨heq, hall⟩ | ⟨l1, l2, hsplit, hlt, h1, h2⟩
      · subst heq
        exact ⟨[], t, rfl, hgt, fun p hp => absurd hp (List.not_mem_nil p), hall⟩
      · refine ⟨a :: l1, l2, by rw [hsplit]; rfl, lt_trans hgt hlt, ?_, h2⟩
        intro p hp
        rcases List.mem_cons.mp hp with hpa | hpl
        · subst hpa; exact hlt
        · exact h1 p hpl
    · have hstep : stepBest (some (b0, score b0)) a (score a) = some (b0, score b0) := by
        show (if score a > score b0 then some (a, score a) else some (b0, score b0))
          = some (b0, score b0)
        rw [if_neg hgt]
      rw [hstep] at h
      obtain ⟨hs, hcase⟩ := ih b0 res s h
      refine ⟨hs, ?_⟩
      rcases hcase with ⟨heq, hall⟩ | ⟨l1, l2, hsplit, hlt, h1, h2⟩
      · refine Or.inl ⟨heq, ?_⟩
        intro p hp
        rcases List.mem_cons.mp hp with hpa | hpl
        · subst hpa; exact le_of_not_lt hgt
        · exact hall p hpl
      · refine Or.inr ⟨a :: l1, l2, by rw [hsplit]; rfl, hlt, ?_, h2⟩
        intro p hp
        rcases List.mem_cons.mp hp with hpa | hpl
        · subst hpa; exact lt_of_le_of_lt (le_of_not_lt hgt) hlt
        · exact h1 p hpl

/-- The first-strict-max fold from an empty accumulator selects the first
    candidate attaining the maximal score: everything before it scores
    strictly less, everything after at most as much. -/
theorem pickBest_spec {α : Type} (score : α → Int) (l : List α) (res : α) (s : Int)
    (h : l.foldl (fun acc p => stepBest acc p (score p)) none = some (res, s)) :
    s = score res
      ∧ ∃ l1 l2, l = l1 ++ res :: l2
          ∧ (∀ p ∈ l1, score p < score res) ∧ (∀ p ∈ l2, score p ≤ score res) := by
  cases l with
  | nil => simp at h
  | cons a t =>
    rw [List.foldl_cons] at h
    have hstep : stepBest (none : Option (α × Int)) a (score a) = some (a, score a) := rfl
    rw [hstep] at h
    obtain ⟨hs, hcase⟩ := pickBest_go score t a res s h
    refine ⟨hs, ?_⟩
    rcases hcase with ⟨heq, hall⟩ | ⟨l1, l2, hsplit, hlt, h1, h2⟩
    · subst heq
      exact ⟨[], t, rfl, fun p hp => absurd hp (List.not_mem_nil p), hall⟩
    · refine ⟨a :: l1, l2, by rw [hsplit]; rfl, ?_, h2⟩
      intro p hp
      rcases List.mem_cons.mp hp with hpa | hpl
      · subst hpa; exact hlt
      · exact h1 p hpl

/-- With no names given, resolution is exactly the candidate-loop
    outcome. -/
theorem resolve_unspecified (compat : Port → Port → Bool)
    (fromN toN : Node) (og ig : CStr) :
    dai_node_link_resolve compat fromN og none toN ig none
      = match bestPairFold compat fromN.outputs toN.inputs og ig with
        | some (p, _) => .ok p
        | none => .error .noCompatiblePorts := by
  unfold dai_node_link_resolve
  cases bestPairFold compat fromN.outputs toN.inputs og ig <;> rfl

/-- C9: heuristic resolution with absent name filters is deterministic —
    any two successful resolutions on the same graph agree — and the
    selected pair is the first candidate pair, in the loop's iteration
    order, attaining the maximal combined score (strict-improvement
    tie-breaking). -/
theorem C9_resolution_deterministic (compat : Port → Port → Bool)
    (fromN toN : Node) (og ig : CStr) (o i : Port)
    (h : dai_node_link_resolve compat fromN og none toN ig none = .ok (o, i)) :
    (∀ o2 i2, dai_node_link_resolve compat fromN og none toN ig none = .ok (o2, i2) →
        o2 = o ∧ i2 = i)
      ∧ ∃ l1 l2, candList compat fromN.outputs toN.inputs og ig = l1 ++ (o, i) :: l2
          ∧ (∀ p ∈ l1, ppScore p < ppScore (o, i))
          ∧ (∀ p ∈ l2, ppScore p ≤ ppScore (o, i)) := by
  constructor
  · intro o2 i2 h2
    rw [h] at h2
    have hp := Except.ok.inj h2
    rw [Prod.mk.injEq] at hp
    exact ⟨hp.1.symm, hp.2.symm⟩
  · rw [resolve_unspecified] at h
    cases hbp : bestPairFold compat fromN.outputs toN.inputs og ig with
    | none => rw [hbp] at h; simp at h
    | some best =>
      obtain ⟨p, sc⟩ := best
      rw [hbp] at h
      have hpe : p = (o, i) := Except.ok.inj h
      subst hpe
      rw [bestPairFold_eq] at hbp
      obtain ⟨hs, l1, l2, hsplit, h1, h2⟩ := pickBest_spec ppScore _ (o, i) sc hbp
      exact ⟨l1, l2, hsplit, h1, h2⟩

/-- C9 witness: on the concrete scenario graph the resolved pair
    (video, in) is the first maximal-scoring candidate. -/
theorem C9_witness :
    ∃ l1 l2, candList anyCompat camNode.outputs procNode.inputs none none
        = l1 ++ ((⟨"video", ""⟩ : Port), (⟨"in", ""⟩ : Port)) :: l2
      ∧ (∀ p ∈ l1, ppScore p < ppScore (⟨"video", ""⟩, ⟨"in", ""⟩))
      ∧ (∀ p ∈ l2, ppScore p ≤ ppScore (⟨"video", ""⟩, ⟨"in", ""⟩)) :=
  (C9_resolution_deterministic anyCompat camNode procNode none none
    ⟨"video", ""⟩ ⟨"in", ""⟩ rfl).2


/-- The unlink search score (wrapper.cpp:3088): per-name sums only, with
    no ungrouped-port bonus. -/
def ucScore (p : Port × Conn) : Int :=
  score_port_name p.1.name true + score_port_name p.2.inName false

/-- The candidate (output, connection) pairs the unlink search ranges
    over, in iteration order: group-matching outputs (outer), then each
    output's realized connections passing the destination-node, group and
    name filters (inner, insertion order). -/
def unlinkCandList (st : ConnSet) (fromN : Node) (outs : List Port)
    (og : CStr) (toN : Node) (ig inm : CStr) : List (Port × Conn) :=
  (outs.filter (fun o => group_matches o.group og)).flatMap
    (fun o =>
      ((connsOf st fromN.id o).filter
        (fun c => c.inNodeId == toN.id && group_matches c.inGroup ig
          && (!(!cstr_empty inm) || c.inName == inm.getD ""))).map (fun c => (o, c)))

/-- The unlink search is the first-strict-max fold over its candidate
    list under the bonus-free score. -/
theorem unlinkSearch_eq (st : ConnSet) (fromN : Node) (outs : List Port)
    (og : CStr) (toN : Node) (ig inm : CStr) :
    unlinkSearch st fromN outs og toN ig inm
      = (unlinkCandList st fromN outs og toN ig inm).foldl
          (fun acc p => stepBest acc p (ucScore p)) none := by
  unfold unlinkSearch unlinkCandList
  rw [foldl_filter_cond (fun o => group_matches o.group og)
    (fun acc o =>
      (connsOf st fromN.id o).foldl
        (fun acc2 c =>
          if c.inNodeId == toN.id && group_matches c.inGroup ig
              && (!(!cstr_empty inm) || c.inName == inm.getD "") then
            stepBest acc2 (o, c)
              (score_port_name o.name true + score_port_name c.inName false)
          else acc2)
        acc)
    outs none]
  rw [foldl_flatMap_eq]
  apply foldl_ext
  intro acc o ho
  rw [List.foldl_map]
  rw [foldl_filter_cond
    (fun c => c.inNodeId == toN.id && group_matches c.inGroup ig
      && (!(!cstr_empty inm) || c.inName == inm.getD ""))
    (fun acc2 c => stepBest acc2 (o, c)
      (score_port_name o.name true + score_port_name c.inName false))
    (connsOf st fromN.id o) acc]
  rfl

/-- C7 (counterexample): unlink does not disambiguate with the same
    heuristic scoring used by link. Between nodes 4 and 5 two realized
    connections tie at 120 under unlink's bonus-free name-sum score, and
    the search removes the first-iterated (depth, in) connection — yet
    link's scoring (pairScore, with the +2 ungrouped bonuses) ranks the
    (pcl, in) pair strictly higher, so link's scoring would have selected
    the other connection. -/
theorem C7_counterexample :
    dai_node_unlink depthNode none none sinkNode none none tieConns
        = .ok [⟨4, "pcl", "", 5, "in", ""⟩]
      ∧ score_port_name "depth" true + score_port_name "in" false
          = score_port_name "pcl" true + score_port_name "in" false
      ∧ pairScore ⟨"depth", "g"⟩ ⟨"in", ""⟩ < pairScore ⟨"pcl", ""⟩ ⟨"in", ""⟩ :=
  ⟨rfl, by decide, by decide⟩

/-- C7 (amended): unlink searches only the existing realized connections
    between the two given nodes (not all possible port pairs),
    disambiguating multiple matches by the per-name score table link
    uses but without link's +2 ungrouped-port bonus — the first
    candidate in iteration order attaining the maximal bonus-free score
    wins, and it is the connection removed; if no realized connection
    matches the given filters — in particular when no connection exists
    between the two nodes at all — it fails with ConnectionNotFound and
    leaves the connection set unchanged. -/
theorem C7_unlink_search_spec (fromN toN : Node) (og ig : CStr) (st : ConnSet) :
    ((∀ c ∈ st, ¬(c.outNodeId = fromN.id ∧ c.inNodeId = toN.id)) →
        dai_node_unlink fromN og none toN ig none st = .error .connectionNotFound)
      ∧ (∀ st2, dai_node_unlink fromN og none toN ig none st = .ok st2 →
          ∃ c, c ∈ st ∧ c.outNodeId = fromN.id ∧ c.inNodeId = toN.id
            ∧ st2 = eraseConn st c)
      ∧ (∀ o c sc, unlinkSearch st fromN fromN.outputs og toN ig none = some ((o, c), sc) →
          dai_node_unlink fromN og none toN ig none st = .ok (eraseConn st c))
      ∧ (∀ o c sc, unlinkSearch st fromN fromN.outputs og toN ig none = some ((o, c), sc) →
          ∃ l1 l2, unlinkCandList st fromN fromN.outputs og toN ig none = l1 ++ (o, c) :: l2
            ∧ (∀ p ∈ l1, ucScore p < ucScore (o, c))
            ∧ (∀ p ∈ l2, ucScore p ≤ ucScore (o, c))) := by
  refine ⟨?_, ?_, ?_, ?_⟩
  · intro hempty
    unfold dai_node_unlink
    simp only [cstr_empty, Bool.not_true, Bool.false_eq_true, if_false]
    rw [unlinkSearch_empty st fromN fromN.outputs og toN ig none hempty]
  · intro st2 hok
    unfold dai_node_unlink at hok
    simp only [cstr_empty, Bool.not_true, Bool.false_eq_true, if_false] at hok
    cases hse : unlinkSearch st fromN fromN.outputs og toN ig none with
    | none => rw [hse] at hok; simp at hok
    | some best =>
      obtain ⟨⟨o, c⟩, sc⟩ := best
      rw [hse] at hok
      have hok2 : output_unlink st c = Except.ok st2 := hok
      have hprops := unlinkSearch_sound st fromN fromN.outputs og toN ig none o c sc hse
      refine ⟨c, hprops.1, hprops.2.1, hprops.2.2, ?_⟩
      unfold output_unlink at hok2
      by_cases hmem : c ∈ st
      · rw [if_pos hmem] at hok2
        exact (Except.ok.inj hok2).symm
      · rw [if_neg hmem] at hok2
        simp at hok2
  · intro o c sc hse
    have hmem := (unlinkSearch_sound st fromN fromN.outputs og toN ig none o c sc hse).1
    unfold dai_node_unlink
    simp only [cstr_empty, Bool.not_true, Bool.false_eq_true, if_false]
    rw [hse]
    show output_unlink st c = Except.ok (eraseConn st c)
    unfold output_unlink
    rw [if_pos hmem]
  · intro o c sc hse
    rw [unlinkSearch_eq] at hse
    obtain ⟨hs, l1, l2, hsplit, h1, h2⟩ := pickBest_spec ucScore _ (o, c) sc hse
    exact ⟨l1, l2, hsplit, h1, h2⟩

/-- C7 witness: unlinking the unconnected concrete nodes fails with
    ConnectionNotFound; and on the tie scenario the search's selected
    (depth, in) connection is the first maximal candidate under the
    bonus-free score. -/
theorem C7_witness :
    dai_node_unlink camNode none none procNode none none []
        = .error .connectionNotFound
      ∧ ∃ l1 l2,
          unlinkCandList tieConns depthNode depthNode.outputs none sinkNode none none
            = l1 ++ ((⟨"depth", "g"⟩ : Port), (⟨4, "depth", "g", 5, "in", ""⟩ : Conn)) :: l2
          ∧ (∀ p ∈ l1, ucScore p < ucScore (⟨"depth", "g"⟩, ⟨4, "depth", "g", 5, "in", ""⟩))
          ∧ (∀ p ∈ l2, ucScore p ≤ ucScore (⟨"depth", "g"⟩, ⟨4, "depth", "g", 5, "in", ""⟩)) :=
  ⟨(C7_unlink_search_spec camNode procNode none none []).1 (by simp),
   (C7_unlink_search_spec depthNode sinkNode none none tieConns).2.2.2
     ⟨"depth", "g"⟩ ⟨4, "depth", "g", 5, "in", ""⟩ 120 rfl⟩


end Daic
